import Mathlib

/-!
Shallow embedding of `src/app/page.jsx` (Token Approval Revoker), a React
component with four operations: `checkWalletConnection`, `connectWallet`,
`fetchApprovals` and `revokeApproval`.  Effects (HTTP GET, wallet RPC,
contract calls, React state setters, blocking alerts) are modelled by
explicit environments and traces; machine-level JS semantics that matter
(optional chaining, string falsiness, `||` defaulting, case-insensitive
comparisons) are translated field by field.
-/

/-- JS `String.prototype.toLowerCase`, character-wise on the underlying
character list (all strings involved are ASCII). -/
def jsToLower (s : String) : String := ⟨s.data.map Char.toLower⟩

/-- JS `s.startsWith(needle)`. -/
def jsStartsWith (s needle : String) : Bool := needle.data.isPrefixOf s.data

/-- Naive substring search over character lists: does `n` occur
contiguously in the second list?  Backs `jsIncludes`. -/
def hasSub (n : List Char) : List Char → Bool
  | [] => n.isPrefixOf []
  | c :: t => n.isPrefixOf (c :: t) || hasSub n t

/-- JS `s.includes(needle)`: contiguous substring containment. -/
def jsIncludes (s needle : String) : Bool := hasSub needle.data s.data

/-- A token-transaction record as returned by the block explorer's
`tokentx` API, restricted to the fields `fetchApprovals` reads.  Fields
the code accesses with optional chaining (`tx.input?.`, `tx.to?.`,
`tx.functionName?.`) or with `||` defaulting (`tx.tokenSymbol`) may be
absent and are `Option`s; `from` and `to` are `fromAddr` and
`toAddr` (both are Lean keywords). -/
structure Tx where
  input : Option String
  functionName : Option String
  fromAddr : String
  toAddr : Option String
  tokenSymbol : Option String
  value : String
  contractAddress : String
  hash : String
  timeStamp : String

/-- The zero address literal compared against `tx.from` (line 96). -/
def zeroAddress : String := "0x0000000000000000000000000000000000000000"

/-- The `approve(address,uint256)` 4-byte selector literal (line 90). -/
def approveSelector : String := "0x095ea7b3"

/-- The filter predicate applied to `response.data.result` in
`fetchApprovals` (lines 88-102):
`(isApprovalCall || hasApproveInName || isApprovalEvent) && isNotSelfApproval`. -/
def approvalFilter (address : String) (tx : Tx) : Bool :=
  let isApprovalCall : Bool := match tx.input with
    | some s => jsStartsWith s approveSelector
    | none => false
  let hasApproveInName : Bool := match tx.functionName with
    | some s => jsIncludes (jsToLower s) "approve"
    | none => false
  let isApprovalEvent : Bool := tx.fromAddr == zeroAddress
  let isNotSelfApproval : Bool := tx.toAddr.map jsToLower != some (jsToLower address)
  (isApprovalCall || hasApproveInName || isApprovalEvent) && isNotSelfApproval

/-- Membership in the character class `[a-fA-F0-9]`. -/
def isHexDigitChar (c : Char) : Bool :=
  (decide ('a' ≤ c) && decide (c ≤ 'f')) ||
  (decide ('A' ≤ c) && decide (c ≤ 'F')) ||
  (decide ('0' ≤ c) && decide (c ≤ '9'))

/-- The regular-expression test `/^0x[a-fA-F0-9]{40}$/.test(s)`
(line 70): the string is `0x` followed by exactly 40 hex digits. -/
def addressRegexTest (s : String) : Bool :=
  match s.data with
  | c0 :: c1 :: rest =>
      c0 == '0' && c1 == 'x' && rest.length == 40 && rest.all isHexDigitChar
  | _ => false

/-- The guard at the top of `fetchApprovals` (line 70): the function
proceeds past validation iff `address` is truthy (non-empty) and the
regex test succeeds, i.e. `!(!address || !re.test(address))`. -/
def validationPasses (s : String) : Bool := !(s == "") && addressRegexTest s

/-- A formatted approval entry as built by the `.map` in `fetchApprovals`
(lines 105-112) and consumed by `revokeApproval`. -/
structure Approval where
  tokenSymbol : String
  toAddr : Option String
  value : String
  contractAddress : String
  txHash : String
  timestamp : String

/-- The formatting step (lines 105-112).  `tx.tokenSymbol || 'Unknown'`
defaults both an absent and an empty symbol (the only falsy strings). -/
def formatApproval (tx : Tx) : Approval :=
  { tokenSymbol := match tx.tokenSymbol with
      | none => "Unknown"
      | some s => if s == "" then "Unknown" else s
    toAddr := tx.toAddr
    value := tx.value
    contractAddress := tx.contractAddress
    txHash := tx.hash
    timestamp := tx.timeStamp }

/-- The JSON body of the block-explorer response (`response.data`):
`status`, optional `message`, and the `result` array of records. -/
structure ApiResponse where
  status : String
  message : Option String
  result : List Tx

/-- Environment of `fetchApprovals`: the HTTP layer (`axios.get`, which
either rejects with an error message or resolves to a parsed body) and
the environment-provided API key `process.env.NEXT_PUBLIC_ETHERSCAN_KEY`. -/
structure FetchEnv where
  httpGet : String → Except String ApiResponse
  apiKey : String

/-- The request URL template literal of line 80. -/
def apiUrl (address apikey : String) : String :=
  "https://api.etherscan.io/api?module=account&action=tokentx&address=" ++
    address ++ "&page=1&offset=100&apikey=" ++ apikey

/-- `response.data.message || "Etherscan API error"` (line 84): `||`
falls through on an absent or empty message. -/
def messageOr (r : ApiResponse) : String :=
  match r.message with
  | none => "Etherscan API error"
  | some m => if m == "" then "Etherscan API error" else m

/-- One observable step of `fetchApprovals`: a React state setter call,
an HTTP request, or a blocking alert. -/
inductive FetchEvent where
  | setLoading (b : Bool)
  | setApprovals (l : List Approval)
  | httpRequest (url : String)
  | alert (msg : String)

/-- The ordered effects of one `fetchApprovals()` call (lines 69-122):
validation guard, `setLoading(true)`, `setApprovals([])`, the GET, then
either the formatted result, or the catch-block alert, and finally
`setLoading(false)` in the `finally` block. -/
def fetchEvents (env : FetchEnv) (address : String) : List FetchEvent :=
  if validationPasses address = false then
    [FetchEvent.alert "Please enter a valid Ethereum address (0x...)"]
  else
    [FetchEvent.setLoading true, FetchEvent.setApprovals [],
     FetchEvent.httpRequest (apiUrl address env.apiKey)] ++
    (match env.httpGet (apiUrl address env.apiKey) with
     | Except.error m => [FetchEvent.alert ("Error: " ++ m)]
     | Except.ok r =>
        if r.status != "1" then
          [FetchEvent.alert ("Error: " ++ messageOr r)]
        else
          [FetchEvent.setApprovals
            ((r.result.filter (approvalFilter address)).map formatApproval)]) ++
    [FetchEvent.setLoading false]

/-- The component-local state `fetchApprovals` touches. -/
structure FetchState where
  approvals : List Approval
  loading : Bool

/-- React state-setter semantics of a single event. -/
def applyEvent (st : FetchState) : FetchEvent → FetchState
  | FetchEvent.setLoading b => { st with loading := b }
  | FetchEvent.setApprovals l => { st with approvals := l }
  | FetchEvent.httpRequest _ => st
  | FetchEvent.alert _ => st

/-- Final component state after one `fetchApprovals()` call starting
from state `st`. -/
def fetchRun (env : FetchEnv) (address : String) (st : FetchState) : FetchState :=
  (fetchEvents env address).foldl applyEvent st

/-- The component's initial state: `useState([])`, `useState(false)`. -/
def initialState : FetchState := { approvals := [], loading := false }

/-- The alert messages among a list of fetch events. -/
def alertsOf (evs : List FetchEvent) : List String :=
  evs.filterMap fun e => match e with
    | FetchEvent.alert m => some m
    | _ => none

/-- The request URLs among a list of fetch events. -/
def requestsOf (evs : List FetchEvent) : List String :=
  evs.filterMap fun e => match e with
    | FetchEvent.httpRequest u => some u
    | _ => none

/-- Environment of `checkWalletConnection` (lines 15-27): presence of
`window.ethereum` and the outcomes of the two provider RPCs. -/
structure CheckEnv where
  hasEthereum : Bool
  ethAccounts : Except String (List String)
  ethChainId : Except String String

/-- Observable outcome of `checkWalletConnection`: which state setters
ran, the caught error if any, and the alerts shown (always none: the
catch block only calls `console.error`). -/
structure CheckTrace where
  connectedSet : Option Bool
  chainSet : Option String
  errorCaught : Option String
  alerts : List String
  consoleErrors : List String

/-- `checkWalletConnection` (lines 15-27): if the provider is present,
read `eth_accounts`, set the connected flag, read `eth_chainId`, set the
chain; any rejection is caught and only logged to the console. -/
def checkWalletConnection (env : CheckEnv) : CheckTrace :=
  if env.hasEthereum = false then
    { connectedSet := none, chainSet := none, errorCaught := none,
      alerts := [], consoleErrors := [] }
  else
    match env.ethAccounts with
    | Except.error e =>
        { connectedSet := none, chainSet := none, errorCaught := some e,
          alerts := [], consoleErrors := ["Wallet connection check failed: " ++ e] }
    | Except.ok accounts =>
        match env.ethChainId with
        | Except.error e =>
            { connectedSet := some (decide (accounts.length > 0)), chainSet := none,
              errorCaught := some e, alerts := [],
              consoleErrors := ["Wallet connection check failed: " ++ e] }
        | Except.ok chainId =>
            { connectedSet := some (decide (accounts.length > 0)),
              chainSet := some chainId, errorCaught := none,
              alerts := [], consoleErrors := [] }

/-- Environment of `connectWallet` (lines 51-67): provider presence and
the outcomes of `eth_requestAccounts` and `eth_chainId`. -/
structure ConnectEnv where
  hasEthereum : Bool
  requestAccounts : Except String (List String)
  ethChainId : Except String String

/-- Observable outcome of `connectWallet`. -/
structure ConnectTrace where
  connectedSet : Option Bool
  chainSet : Option String
  errorCaught : Option String
  alerts : List String

/-- `connectWallet` (lines 51-67): throws when the provider is absent,
otherwise requests accounts and the chain id; every caught error is
alerted as `Wallet connection failed: <message>`. -/
def connectWallet (env : ConnectEnv) : ConnectTrace :=
  if env.hasEthereum = false then
    { connectedSet := none, chainSet := none,
      errorCaught := some "MetaMask not installed",
      alerts := ["Wallet connection failed: MetaMask not installed"] }
  else
    match env.requestAccounts with
    | Except.error e =>
        { connectedSet := none, chainSet := none, errorCaught := some e,
          alerts := ["Wallet connection failed: " ++ e] }
    | Except.ok accounts =>
        match env.ethChainId with
        | Except.error e =>
            { connectedSet := some (decide (accounts.length > 0)), chainSet := none,
              errorCaught := some e,
              alerts := ["Wallet connection failed: " ++ e] }
        | Except.ok chainId =>
            { connectedSet := some (decide (accounts.length > 0)),
              chainSet := some chainId, errorCaught := none, alerts := [] }

/-- Environment of `revokeApproval` (lines 124-162): provider presence,
the component's connected flag, the signer's address, the on-chain
allowance oracle (token contract, owner, spender), and the hash of the
transaction the wallet would produce. -/
structure RevokeEnv where
  hasEthereum : Bool
  isWalletConnected : Bool
  signerAddress : String
  allowanceOf : String → String → Option String → Nat
  txHash : String

/-- Observable outcome of `revokeApproval`: the thrown-and-caught error
if any, whether the `ethers.Contract` binding was constructed, the
`allowance` reads issued (contract, owner, spender), the `approve`
transactions submitted (contract, spender, amount), how many
confirmations were awaited, the alerts, and whether the list was
refreshed. -/
structure RevokeTrace where
  errorCaught : Option String
  contractConstructed : Bool
  allowanceReads : List (String × String × Option String)
  submitted : List (String × Option String × Nat)
  waited : Nat
  alerts : List String
  refreshed : Bool

/-- `revokeApproval` (lines 124-162): guard on provider and connection,
construct the contract binding, read `allowance(signer, approval.to)`;
on a zero allowance throw `No active approval found`; otherwise submit
`approve(approval.to, 0)`, await one confirmation, alert success and
refresh.  Caught errors are alerted as `Revoke failed: <message>`. -/
def revokeApproval (env : RevokeEnv) (approval : Approval) : RevokeTrace :=
  if env.hasEthereum = false then
    { errorCaught := some "MetaMask not installed", contractConstructed := false,
      allowanceReads := [], submitted := [], waited := 0,
      alerts := ["Revoke failed: MetaMask not installed"], refreshed := false }
  else if env.isWalletConnected = false then
    { errorCaught := some "Please connect your wallet first", contractConstructed := false,
      allowanceReads := [], submitted := [], waited := 0,
      alerts := ["Revoke failed: Please connect your wallet first"], refreshed := false }
  else
    let owner := env.signerAddress
    let currentAllowance := env.allowanceOf approval.contractAddress owner approval.toAddr
    if currentAllowance = 0 then
      { errorCaught := some "No active approval found", contractConstructed := true,
        allowanceReads := [(approval.contractAddress, owner, approval.toAddr)],
        submitted := [], waited := 0,
        alerts := ["Revoke failed: No active approval found"], refreshed := false }
    else
      { errorCaught := none, contractConstructed := true,
        allowanceReads := [(approval.contractAddress, owner, approval.toAddr)],
        submitted := [(approval.contractAddress, approval.toAddr, 0)], waited := 1,
        alerts := ["Success! Approval revoked in transaction: " ++ env.txHash],
        refreshed := true }

/-- Spec-side vocabulary: `text` occurs contiguously inside `msg`. -/
def containsText (msg text : String) : Prop :=
  ∃ pre suf, msg.data = pre ++ text.data ++ suf

/-- The approval-filter condition exactly as the claim words it: the
input starts with the approve selector, or the function name contains
`approve` case-insensitively, or the from-address is the zero address —
and the record's `to` FIELD differs from the queried address (a raw,
case-sensitive comparison of the field's value).  Written from the
claim for comparison against `approvalFilter`, which lowercases both
sides of the `to` comparison. -/
def claimC1Filter (address : String) (tx : Tx) : Prop :=
  ((∃ s, tx.input = some s ∧ approveSelector.data <+: s.data) ∨
   (∃ s, tx.functionName = some s ∧ "approve".data <:+: s.data.map Char.toLower) ∨
   tx.fromAddr = zeroAddress) ∧
  tx.toAddr ≠ some address

/-- The fetch fails: the GET rejects, or it resolves with a body whose
`status` is not `"1"` (the two `throw` paths of lines 79-85). -/
def fetchFails (env : FetchEnv) (address : String) : Prop :=
  match env.httpGet (apiUrl address env.apiKey) with
  | Except.error _ => True
  | Except.ok r => r.status ≠ "1"

/-- A lowercase test address. -/
def addrLower : String := "0xaaaaaaaaaaaaaaaaaaaaaaaaaaaaaaaaaaaaaaaa"

/-- The same address with the hex letters uppercased. -/
def addrUpper : String := "0xAAAAAAAAAAAAAAAAAAAAAAAAAAAAAAAAAAAAAAAA"

/-- A record whose `to` field is the uppercase spelling of `addrLower`
and whose input starts with the approve selector. -/
def txSelf : Tx :=
  { input := some "0x095ea7b3"
    functionName := none
    fromAddr := "0xbbbbbbbbbbbbbbbbbbbbbbbbbbbbbbbbbbbbbbbb"
    toAddr := some addrUpper
    tokenSymbol := some "TKN"
    value := "1"
    contractAddress := "0xcccccccccccccccccccccccccccccccccccccccc"
    hash := "0xhash1"
    timeStamp := "1700000000" }

/-- A record that passes the approval filter against `addrLower`. -/
def txA : Tx :=
  { input := some "0x095ea7b3ffff"
    functionName := none
    fromAddr := "0xbbbbbbbbbbbbbbbbbbbbbbbbbbbbbbbbbbbbbbbb"
    toAddr := some "0xdddddddddddddddddddddddddddddddddddddddd"
    tokenSymbol := some "AAA"
    value := "2"
    contractAddress := "0xcccccccccccccccccccccccccccccccccccccccc"
    hash := "0xhash2"
    timeStamp := "1700000001" }

/-- A second record that passes the approval filter against `addrLower`. -/
def txB : Tx :=
  { input := none
    functionName := some "Approve(address,uint256)"
    fromAddr := "0xbbbbbbbbbbbbbbbbbbbbbbbbbbbbbbbbbbbbbbbb"
    toAddr := some "0xeeeeeeeeeeeeeeeeeeeeeeeeeeeeeeeeeeeeeeee"
    tokenSymbol := none
    value := "3"
    contractAddress := "0xcccccccccccccccccccccccccccccccccccccccc"
    hash := "0xhash3"
    timeStamp := "1700000002" }

/-- A successful API response carrying `txA` and `txB`. -/
def resp8 : ApiResponse := { status := "1", message := none, result := [txA, txB] }

/-- A fetch environment whose GET always succeeds with `resp8`. -/
def fenvOk : FetchEnv := { httpGet := fun _ => Except.ok resp8, apiKey := "KEY" }

/-- A fetch environment whose GET always rejects. -/
def fenvErr : FetchEnv := { httpGet := fun _ => Except.error "boom", apiKey := "KEY" }

/-- A check environment whose `eth_accounts` read rejects. -/
def cenv0 : CheckEnv :=
  { hasEthereum := true, ethAccounts := Except.error "boom",
    ethChainId := Except.ok "0x1" }

/-- A revoke environment: provider present, wallet connected, a nonzero
allowance everywhere. -/
def renvOk : RevokeEnv :=
  { hasEthereum := true, isWalletConnected := true,
    signerAddress := "0xffffffffffffffffffffffffffffffffffffffff",
    allowanceOf := fun _ _ _ => 7, txHash := "0xdeadbeef" }

/-- A revoke environment with the wallet disconnected. -/
def renvDisc : RevokeEnv :=
  { hasEthereum := true, isWalletConnected := false,
    signerAddress := "0xffffffffffffffffffffffffffffffffffffffff",
    allowanceOf := fun _ _ _ => 7, txHash := "0xdeadbeef" }

/-- An approval entry to revoke. -/
def ap0 : Approval :=
  { tokenSymbol := "TKN", toAddr := some "0xdddddddddddddddddddddddddddddddddddddddd",
    value := "7", contractAddress := "0xcccccccccccccccccccccccccccccccccccccccc",
    txHash := "0xhash2", timestamp := "1700000001" }

/-- C2 : the address validation accepts exactly the strings matching
`^0x[a-fA-F0-9]{40}$`: first two characters `0x`, then exactly 40
characters from the class `[a-fA-F0-9]`. -/
theorem C2_address_validation (s : String) :
    validationPasses s = true ↔
      ∃ rest : List Char, s.data = '0' :: 'x' :: rest ∧ rest.length = 40 ∧
        ∀ c ∈ rest, ('a' ≤ c ∧ c ≤ 'f') ∨ ('A' ≤ c ∧ c ≤ 'F') ∨ ('0' ≤ c ∧ c ≤ '9') := by
  have hne : (!(s == "")) = true ↔ s.data ≠ [] := by
    constructor
    · intro h hdata
      have : s = "" := by
        apply String.ext
        simpa using hdata
      simp [this] at h
    · intro h
      simp only [Bool.not_eq_eq_eq_not, Bool.not_true, beq_eq_false_iff_ne, ne_eq]
      intro hs
      exact h (by simp [hs])
  constructor
  · intro h
    rcases Bool.and_eq_true _ _ |>.mp h with ⟨h1, h2⟩
    rcases hd : s.data with _ | ⟨c0, tl⟩
    · exact absurd hd (hne.mp h1)
    · rcases tl with _ | ⟨c1, rest⟩
      · rw [addressRegexTest, hd] at h2
        simp at h2
      · rw [addressRegexTest, hd] at h2
        simp only [Bool.and_eq_true, beq_iff_eq, List.all_eq_true] at h2
        obtain ⟨⟨⟨hc0, hc1⟩, hlen⟩, hall⟩ := h2
        subst hc0; subst hc1
        refine ⟨rest, rfl, hlen, fun c hc => ?_⟩
        have := hall c hc
        simpa [isHexDigitChar, decide_eq_true_eq, or_assoc] using this
  · rintro ⟨rest, hd, hlen, hall⟩
    apply Bool.and_eq_true _ _ |>.mpr
    constructor
    · exact hne.mpr (by simp [hd])
    · rw [addressRegexTest, hd]
      have hall' : rest.all isHexDigitChar = true := by
        rw [List.all_eq_true]
        intro c hc
        simpa [isHexDigitChar, decide_eq_true_eq, or_assoc] using hall c hc
      simp [hlen, hall']

/-- Witness for C2 at a concrete valid address. -/
theorem C2_address_validation_witness :
    validationPasses "0x00000000219ab540356cbb839cbe05303d7705fa" = true :=
  (C2_address_validation _).mpr (by
    refine ⟨_, rfl, by decide, by decide⟩)

/-- `hasSub` decides contiguous containment. -/
theorem hasSub_iff {n h : List Char} : hasSub n h = true ↔ n <:+: h := by
  induction h with
  | nil =>
    simp only [hasSub, List.isPrefixOf_iff_prefix]
    constructor
    · rintro ⟨t, ht⟩
      rcases List.append_eq_nil.mp ht with ⟨hn, -⟩
      exact ⟨[], [], by simp [hn]⟩
    · rintro ⟨pre, suf, hps⟩
      rcases List.append_eq_nil.mp hps with ⟨h1, -⟩
      rcases List.append_eq_nil.mp h1 with ⟨-, hn⟩
      exact ⟨[], by simp [hn]⟩
  | cons c t ih =>
    simp only [hasSub, Bool.or_eq_true, List.isPrefixOf_iff_prefix, ih]
    constructor
    · rintro (⟨suf, hsuf⟩ | ⟨pre, suf, hps⟩)
      · exact ⟨[], suf, by simp [hsuf]⟩
      · exact ⟨c :: pre, suf, by simp [hps]⟩
    · rintro ⟨pre, suf, hps⟩
      cases pre with
      | nil => exact Or.inl ⟨suf, by simpa using hps⟩
      | cons p ps =>
        right
        have hps' : c :: t = p :: (ps ++ n ++ suf) := by simpa using hps.symm
        injection hps' with h1 h2
        exact ⟨ps, suf, h2.symm⟩

/-- The filter of lines 88-102, characterised: it accepts exactly the
records satisfying one of the three heuristics whose `to` field is
absent or differs from the queried address after lowercasing both. -/
theorem approvalFilter_eq_true_iff (address : String) (tx : Tx) :
    approvalFilter address tx = true ↔
      (((∃ s, tx.input = some s ∧ approveSelector.data <+: s.data) ∨
        (∃ s, tx.functionName = some s ∧ "approve".data <:+: s.data.map Char.toLower) ∨
        tx.fromAddr = zeroAddress) ∧
       ∀ s, tx.toAddr = some s → jsToLower s ≠ jsToLower address) := by
  unfold approvalFilter
  cases hin : tx.input <;> cases hfn : tx.functionName <;> cases hto : tx.toAddr <;>
    simp [jsStartsWith, jsIncludes, jsToLower, hasSub_iff, beq_iff_eq, bne_iff_ne,
      or_assoc]

/-- C1 (amended): a record appears among the filtered approval
transactions iff it is in the API result array, one of the three
heuristics holds (input starts with the approve selector, function name
contains `approve` case-insensitively, or the from-address is the zero
address), and the record's `to` field differs from the queried address
case-insensitively (both sides lowercased; an absent `to` field counts
as differing). -/
theorem C1_filter_membership (address : String) (txs : List Tx) (tx : Tx) :
    tx ∈ txs.filter (approvalFilter address) ↔
      tx ∈ txs ∧
      (((∃ s, tx.input = some s ∧ approveSelector.data <+: s.data) ∨
        (∃ s, tx.functionName = some s ∧ "approve".data <:+: s.data.map Char.toLower) ∨
        tx.fromAddr = zeroAddress) ∧
       ∀ s, tx.toAddr = some s → jsToLower s ≠ jsToLower address) := by
  rw [List.mem_filter, approvalFilter_eq_true_iff]

/-- C1 counterexample: `txSelf` satisfies the claim's condition as
worded (its input starts with the approve selector and its `to` field,
the uppercase spelling, is a different string from the queried lowercase
address), yet the filter of the code rejects it, because the code
compares the `to` field with the queried address after lowercasing
both. -/
theorem C1_counterexample :
    claimC1Filter addrLower txSelf ∧ approvalFilter addrLower txSelf = false := by
  refine ⟨⟨Or.inl ⟨"0x095ea7b3", rfl, by decide⟩, by decide⟩, by decide⟩

/-- C3 : with the provider present and the wallet connected,
`revokeApproval` first reads `allowance(signer, approval.to)` on the
approval's token contract; a zero allowance raises
`No active approval found` with no transaction submitted; a nonzero
allowance submits exactly one `approve(approval.to, 0)` and awaits one
confirmation. -/
theorem C3_revoke_reads_allowance (env : RevokeEnv) (a : Approval)
    (h1 : env.hasEthereum = true) (h2 : env.isWalletConnected = true) :
    (revokeApproval env a).allowanceReads =
      [(a.contractAddress, env.signerAddress, a.toAddr)] ∧
    (env.allowanceOf a.contractAddress env.signerAddress a.toAddr = 0 →
      (revokeApproval env a).errorCaught = some "No active approval found" ∧
      (revokeApproval env a).submitted = []) ∧
    (env.allowanceOf a.contractAddress env.signerAddress a.toAddr ≠ 0 →
      (revokeApproval env a).submitted = [(a.contractAddress, a.toAddr, 0)] ∧
      (revokeApproval env a).waited = 1) := by
  by_cases h0 : env.allowanceOf a.contractAddress env.signerAddress a.toAddr = 0 <;>
    simp [revokeApproval, h1, h2, h0]

/-- Witness for C3: a concrete connected environment with a nonzero
allowance submits the one zeroing transaction. -/
theorem C3_revoke_reads_allowance_witness :
    (revokeApproval renvOk ap0).allowanceReads =
      [(ap0.contractAddress, renvOk.signerAddress, ap0.toAddr)] ∧
    (revokeApproval renvOk ap0).submitted = [(ap0.contractAddress, ap0.toAddr, 0)] := by
  have h := C3_revoke_reads_allowance renvOk ap0 rfl rfl
  exact ⟨h.1, (h.2.2 (by decide)).1⟩

/-- C4 : whenever the component's connected flag is false,
`revokeApproval` raises an error before constructing the contract
binding, and performs no allowance read and no transaction (this holds
whether or not the provider is present, since the missing-provider
branch throws even earlier). -/
theorem C4_revoke_blocked_disconnected (env : RevokeEnv) (a : Approval)
    (h : env.isWalletConnected = false) :
    (revokeApproval env a).errorCaught.isSome = true ∧
    (revokeApproval env a).contractConstructed = false ∧
    (revokeApproval env a).allowanceReads = [] ∧
    (revokeApproval env a).submitted = [] := by
  by_cases he : env.hasEthereum = false <;> simp [revokeApproval, he, h]

/-- Witness for C4 at a concrete disconnected environment. -/
theorem C4_revoke_blocked_disconnected_witness :
    (revokeApproval renvDisc ap0).errorCaught.isSome = true ∧
    (revokeApproval renvDisc ap0).allowanceReads = [] := by
  have h := C4_revoke_blocked_disconnected renvDisc ap0 rfl
  exact ⟨h.1, h.2.2.1⟩

/-- A string contains any of its appended suffixes. -/
theorem containsText_append_left (p e : String) : containsText (p ++ e) e :=
  ⟨p.data, [], by simp⟩

/-- Every caught error in `connectWallet` is alerted with its message. -/
theorem connectWallet_alert (env : ConnectEnv) (e : String)
    (h : (connectWallet env).errorCaught = some e) :
    "Wallet connection failed: " ++ e ∈ (connectWallet env).alerts := by
  rcases env with ⟨he, ha, hc⟩
  cases he <;> cases ha <;> cases hc <;> simp_all [connectWallet] <;> (subst h; rfl)

/-- Every caught error in `revokeApproval` is alerted with its message. -/
theorem revokeApproval_alert (env : RevokeEnv) (ap : Approval) (e : String)
    (h : (revokeApproval env ap).errorCaught = some e) :
    "Revoke failed: " ++ e ∈ (revokeApproval env ap).alerts := by
  unfold revokeApproval at h ⊢
  by_cases he : env.hasEthereum = false <;>
    by_cases hw : env.isWalletConnected = false <;>
    by_cases h0 : env.allowanceOf ap.contractAddress env.signerAddress ap.toAddr = 0 <;>
    simp_all <;> (subst h; rfl)

/-- A rejected GET in `fetchApprovals` is alerted with its message. -/
theorem fetchEvents_error_alert (env : FetchEnv) (address m : String)
    (hv : validationPasses address = true)
    (he : env.httpGet (apiUrl address env.apiKey) = Except.error m) :
    FetchEvent.alert ("Error: " ++ m) ∈ fetchEvents env address := by
  simp [fetchEvents, hv, he]

/-- A non-`"1"` API status in `fetchApprovals` is alerted with the
thrown message. -/
theorem fetchEvents_status_alert (env : FetchEnv) (address : String) (r : ApiResponse)
    (hv : validationPasses address = true)
    (hok : env.httpGet (apiUrl address env.apiKey) = Except.ok r)
    (hs : r.status ≠ "1") :
    FetchEvent.alert ("Error: " ++ messageOr r) ∈ fetchEvents env address := by
  simp [fetchEvents, hv, hok, bne_iff_ne, hs]

/-- C5 (amended): every error caught in `connectWallet`,
`fetchApprovals` (both throw paths) and `revokeApproval` is surfaced as
a blocking alert containing the error's message text, but the failure
path of `checkWalletConnection` shows no alert at all (its catch block
only logs to the console). -/
theorem C5_failure_alerts :
    (∀ cenv : CheckEnv, (checkWalletConnection cenv).alerts = []) ∧
    (∀ (wenv : ConnectEnv) (e : String), (connectWallet wenv).errorCaught = some e →
      ∃ m, m ∈ (connectWallet wenv).alerts ∧ containsText m e) ∧
    (∀ (fenv : FetchEnv) (address m : String), validationPasses address = true →
      fenv.httpGet (apiUrl address fenv.apiKey) = Except.error m →
      ∃ a, FetchEvent.alert a ∈ fetchEvents fenv address ∧ containsText a m) ∧
    (∀ (fenv : FetchEnv) (address : String) (r : ApiResponse),
      validationPasses address = true →
      fenv.httpGet (apiUrl address fenv.apiKey) = Except.ok r → r.status ≠ "1" →
      ∃ a, FetchEvent.alert a ∈ fetchEvents fenv address ∧ containsText a (messageOr r)) ∧
    (∀ (renv : RevokeEnv) (ap : Approval) (e : String),
      (revokeApproval renv ap).errorCaught = some e →
      ∃ m, m ∈ (revokeApproval renv ap).alerts ∧ containsText m e) := by
  refine ⟨?_, ?_, ?_, ?_, ?_⟩
  · intro cenv
    rcases cenv with ⟨he, ha, hc⟩
    cases he <;> cases ha <;> cases hc <;> simp [checkWalletConnection]
  · intro wenv e h
    exact ⟨_, connectWallet_alert wenv e h, containsText_append_left _ _⟩
  · intro fenv address m hv he
    exact ⟨_, fetchEvents_error_alert fenv address m hv he, containsText_append_left _ _⟩
  · intro fenv address r hv hok hs
    exact ⟨_, fetchEvents_status_alert fenv address r hv hok hs,
      containsText_append_left _ _⟩
  · intro renv ap e h
    exact ⟨_, revokeApproval_alert renv ap e h, containsText_append_left _ _⟩

/-- C5 counterexample: in `checkWalletConnection`, a rejected
`eth_accounts` read is a failure path that completes with no alert —
the error is only logged. -/
theorem C5_counterexample :
    (checkWalletConnection cenv0).errorCaught = some "boom" ∧
    (checkWalletConnection cenv0).alerts = [] := ⟨rfl, rfl⟩

/-- Witness for C5 applying the revoke conjunct at a concrete
disconnected environment. -/
theorem C5_failure_alerts_witness :
    0 < (revokeApproval renvDisc ap0).alerts.length := by
  obtain ⟨m, hm, -⟩ := C5_failure_alerts.2.2.2.2 renvDisc ap0
    "Please connect your wallet first" (by decide)
  exact List.length_pos.mpr (List.ne_nil_of_mem hm)

/-- C6 : on a validation failure `fetchApprovals` shows only the
validation alert, issues no HTTP request, and leaves the component
state (approvals list and loading flag) unchanged. -/
theorem C6_invalid_address_aborts (env : FetchEnv) (address : String) (st : FetchState)
    (h : validationPasses address = false) :
    fetchEvents env address =
      [FetchEvent.alert "Please enter a valid Ethereum address (0x...)"] ∧
    requestsOf (fetchEvents env address) = [] ∧
    fetchRun env address st = st := by
  have he : fetchEvents env address =
      [FetchEvent.alert "Please enter a valid Ethereum address (0x...)"] := by
    simp [fetchEvents, h]
  refine ⟨he, ?_, ?_⟩
  · rw [he]; rfl
  · rw [fetchRun, he]; rfl

/-- Witness for C6 at a concrete invalid address. -/
theorem C6_invalid_address_aborts_witness :
    validationPasses "nope" = false ∧
    fetchRun fenvOk "nope" initialState = initialState := by
  have h := C6_invalid_address_aborts fenvOk "nope" initialState (by decide)
  exact ⟨by decide, h.2.2⟩

/-- With a valid address, the one and only request is the `apiUrl`. -/
theorem requestsOf_fetchEvents (env : FetchEnv) (address : String)
    (hv : validationPasses address = true) :
    requestsOf (fetchEvents env address) = [apiUrl address env.apiKey] := by
  rcases hg : env.httpGet (apiUrl address env.apiKey) with m | r
  · simp [fetchEvents, hv, hg, requestsOf]
  · by_cases hs : r.status = "1" <;>
      simp [fetchEvents, hv, hg, requestsOf, bne_iff_ne, hs]

/-- C7 : for a valid address, `fetchApprovals` issues exactly one HTTP
GET, whose URL carries `module=account`, `action=tokentx`, the queried
address, `page=1`, the hardcoded page size `offset=100`, and the
environment-provided API key. -/
theorem C7_single_request (env : FetchEnv) (address : String)
    (hv : validationPasses address = true) :
    ∃ u, requestsOf (fetchEvents env address) = [u] ∧
      containsText u "module=account" ∧
      containsText u "action=tokentx" ∧
      containsText u ("address=" ++ address) ∧
      containsText u "page=1" ∧
      containsText u "offset=100" ∧
      containsText u ("apikey=" ++ env.apiKey) := by
  refine ⟨apiUrl address env.apiKey, requestsOf_fetchEvents env address hv,
    ?_, ?_, ?_, ?_, ?_, ?_⟩
  · refine ⟨"https://api.etherscan.io/api?".data,
      "&action=tokentx&address=".data ++ address.data ++
        "&page=1&offset=100&apikey=".data ++ env.apiKey.data, ?_⟩
    have hsplit :
        ("https://api.etherscan.io/api?module=account&action=tokentx&address=" :
          String).data =
        "https://api.etherscan.io/api?".data ++ "module=account".data ++
          "&action=tokentx&address=".data := by decide
    simp [apiUrl, hsplit, List.append_assoc]
  · refine ⟨"https://api.etherscan.io/api?module=account&".data,
      "&address=".data ++ address.data ++
        "&page=1&offset=100&apikey=".data ++ env.apiKey.data, ?_⟩
    have hsplit :
        ("https://api.etherscan.io/api?module=account&action=tokentx&address=" :
          String).data =
        "https://api.etherscan.io/api?module=account&".data ++ "action=tokentx".data ++
          "&address=".data := by decide
    simp [apiUrl, hsplit, List.append_assoc]
  · refine ⟨"https://api.etherscan.io/api?module=account&action=tokentx&".data,
      "&page=1&offset=100&apikey=".data ++ env.apiKey.data, ?_⟩
    have hsplit :
        ("https://api.etherscan.io/api?module=account&action=tokentx&address=" :
          String).data =
        "https://api.etherscan.io/api?module=account&action=tokentx&".data ++
          "address=".data := by decide
    simp [apiUrl, hsplit, List.append_assoc]
  · refine ⟨"https://api.etherscan.io/api?module=account&action=tokentx&address=".data ++
      address.data ++ "&".data,
      "&offset=100&apikey=".data ++ env.apiKey.data, ?_⟩
    have hsplit : ("&page=1&offset=100&apikey=" : String).data =
        "&".data ++ "page=1".data ++ "&offset=100&apikey=".data := by decide
    simp [apiUrl, hsplit, List.append_assoc]
  · refine ⟨"https://api.etherscan.io/api?module=account&action=tokentx&address=".data ++
      address.data ++ "&page=1&".data,
      "&apikey=".data ++ env.apiKey.data, ?_⟩
    have hsplit : ("&page=1&offset=100&apikey=" : String).data =
        "&page=1&".data ++ "offset=100".data ++ "&apikey=".data := by decide
    simp [apiUrl, hsplit, List.append_assoc]
  · refine ⟨"https://api.etherscan.io/api?module=account&action=tokentx&address=".data ++
      address.data ++ "&page=1&offset=100&".data, [], ?_⟩
    have hsplit : ("&page=1&offset=100&apikey=" : String).data =
        "&page=1&offset=100&".data ++ "apikey=".data := by decide
    simp [apiUrl, hsplit, List.append_assoc]

/-- Witness for C7 at a concrete valid address. -/
theorem C7_single_request_witness :
    validationPasses addrLower = true ∧
    (requestsOf (fetchEvents fenvOk addrLower)).length = 1 := by
  have hv : validationPasses addrLower = true := by decide
  obtain ⟨u, hu, -⟩ := C7_single_request fenvOk addrLower hv
  exact ⟨hv, by rw [hu]; rfl⟩

/-- Positions `i < j` of a list form a two-element sublist. -/
theorem pair_sublist {α : Type} :
    ∀ (l : List α) (i j : Nat) (hi : i < l.length) (hj : j < l.length), i < j →
      List.Sublist [l.get ⟨i, hi⟩, l.get ⟨j, hj⟩] l := by
  intro l
  induction l with
  | nil => intro i j hi _ _; simp at hi
  | cons c t ih =>
    intro i j hi hj hij
    cases i with
    | zero =>
      cases j with
      | zero => exact absurd hij (lt_irrefl 0)
      | succ j' =>
        exact List.Sublist.cons₂ c
          (List.singleton_sublist.mpr (List.get_mem t j' (Nat.lt_of_succ_lt_succ hj)))
    | succ i' =>
      cases j with
      | zero => exact absurd hij (by omega)
      | succ j' =>
        exact List.Sublist.cons c
          (ih i' j' (Nat.lt_of_succ_lt_succ hi) (Nat.lt_of_succ_lt_succ hj) (by omega))

/-- A two-element sublist sits at an increasing pair of positions. -/
theorem sublist_pair_index {α : Type} {x y : α} :
    ∀ {m : List α}, List.Sublist [x, y] m →
      ∃ (i j : Fin m.length), (i : ℕ) < (j : ℕ) ∧ m.get i = x ∧ m.get j = y := by
  intro m
  induction m with
  | nil => intro h; exact absurd h (by simp)
  | cons c t ih =>
    intro h
    cases h with
    | cons _ h' =>
      obtain ⟨i, j, hij, hx, hy⟩ := ih h'
      exact ⟨i.succ, j.succ, by simp only [Fin.val_succ]; omega, hx, hy⟩
    | cons₂ _ h' =>
      have hy : y ∈ t := List.singleton_sublist.mp h'
      obtain ⟨j, hj⟩ := List.mem_iff_get.mp hy
      exact ⟨⟨0, Nat.succ_pos _⟩, j.succ, by simp only [Fin.val_succ]; omega, rfl, hj⟩

/-- Final state of a successful `fetchApprovals` run: the filtered and
formatted result, with loading reset. -/
theorem fetchRun_ok (env : FetchEnv) (address : String) (st : FetchState)
    (r : ApiResponse) (hv : validationPasses address = true)
    (hok : env.httpGet (apiUrl address env.apiKey) = Except.ok r)
    (hs : r.status = "1") :
    fetchRun env address st =
      { approvals := (r.result.filter (approvalFilter address)).map formatApproval,
        loading := false } := by
  simp [fetchRun, fetchEvents, hv, hok, hs, applyEvent]

/-- C8 : the approvals list preserves the relative order of the API
result array: any two records passing the filter appear, formatted, at
an increasing pair of positions of the final approvals list. -/
theorem C8_order_preserved (env : FetchEnv) (address : String) (st : FetchState)
    (r : ApiResponse) (hv : validationPasses address = true)
    (hok : env.httpGet (apiUrl address env.apiKey) = Except.ok r)
    (hs : r.status = "1")
    (i j : Nat) (hi : i < r.result.length) (hj : j < r.result.length) (hij : i < j)
    (hpi : approvalFilter address (r.result.get ⟨i, hi⟩) = true)
    (hpj : approvalFilter address (r.result.get ⟨j, hj⟩) = true) :
    ∃ (i' j' : Fin (fetchRun env address st).approvals.length), (i' : ℕ) < (j' : ℕ) ∧
      (fetchRun env address st).approvals.get i' =
        formatApproval (r.result.get ⟨i, hi⟩) ∧
      (fetchRun env address st).approvals.get j' =
        formatApproval (r.result.get ⟨j, hj⟩) := by
  have h1 : List.Sublist [r.result.get ⟨i, hi⟩, r.result.get ⟨j, hj⟩] r.result :=
    pair_sublist r.result i j hi hj hij
  have h2 := h1.filter (approvalFilter address)
  have h2' : [r.result.get ⟨i, hi⟩, r.result.get ⟨j, hj⟩].filter
      (approvalFilter address) = [r.result.get ⟨i, hi⟩, r.result.get ⟨j, hj⟩] := by
    have hpi' := hpi
    have hpj' := hpj
    simp only [List.get_eq_getElem] at hpi' hpj'
    simp [List.filter, hpi', hpj']
  rw [h2'] at h2
  have h3 := h2.map formatApproval
  rw [fetchRun_ok env address st r hv hok hs]
  exact sublist_pair_index (by simpa using h3)

/-- Witness for C8: two records of a concrete response both pass the
filter, so the final list has at least two entries. -/
theorem C8_order_preserved_witness :
    2 ≤ (fetchRun fenvOk addrLower initialState).approvals.length := by
  obtain ⟨i', j', hij, -, -⟩ := C8_order_preserved fenvOk addrLower initialState resp8
    (by decide) rfl rfl 0 1 (by decide) (by decide) (by decide) (by decide) (by decide)
  have h1 := j'.isLt
  omega

/-- C9 : a record with an absent or empty `tokenSymbol` is formatted
with the symbol `Unknown`, and every entry of the final approvals list
has a non-empty symbol. -/
theorem C9_token_symbol (env : FetchEnv) (address : String) (tx : Tx)
    (h : tx.tokenSymbol = none ∨ tx.tokenSymbol = some "") :
    (formatApproval tx).tokenSymbol = "Unknown" ∧
    ∀ a ∈ (fetchRun env address initialState).approvals, a.tokenSymbol ≠ "" := by
  have hfmt : ∀ tx' : Tx, (formatApproval tx').tokenSymbol ≠ "" := by
    intro tx'
    unfold formatApproval
    cases hts : tx'.tokenSymbol with
    | none => simp
    | some s =>
      by_cases hs : s = "" <;> simp [beq_iff_eq, hs]
  refine ⟨?_, ?_⟩
  · rcases h with h | h <;> simp [formatApproval, h]
  · intro a ha
    by_cases hv : validationPasses address = true
    · rcases hg : env.httpGet (apiUrl address env.apiKey) with m | r
      · have hrun : fetchRun env address initialState =
            { approvals := [], loading := false } := by
          simp [fetchRun, fetchEvents, hv, hg, applyEvent]
        rw [hrun] at ha
        simp at ha
      · by_cases hs : r.status = "1"
        · rw [fetchRun_ok env address initialState r hv hg hs] at ha
          simp only [List.mem_map] at ha
          obtain ⟨tx', -, rfl⟩ := ha
          exact hfmt tx'
        · have hrun : fetchRun env address initialState =
              { approvals := [], loading := false } := by
            simp [fetchRun, fetchEvents, hv, hg, applyEvent, bne_iff_ne, hs]
          rw [hrun] at ha
          simp at ha
    · simp only [Bool.not_eq_true] at hv
      have hrun : fetchRun env address initialState = initialState := by
        simp [fetchRun, fetchEvents, hv, applyEvent]
      rw [hrun] at ha
      simp [initialState] at ha

/-- Witness for C9 at a record without a symbol. -/
theorem C9_token_symbol_witness : (formatApproval txB).tokenSymbol = "Unknown" :=
  (C9_token_symbol fenvOk addrLower txB (Or.inl rfl)).1

/-- C10 : with a valid address, `setLoading(true)` and
`setApprovals([])` precede the HTTP request; the loading flag is false
after the run, on success and on failure; and when the fetch fails the
approvals list ends up empty. -/
theorem C10_clears_and_loading (env : FetchEnv) (address : String) (st : FetchState)
    (hv : validationPasses address = true) :
    (∀ url, FetchEvent.httpRequest url ∈ fetchEvents env address →
      ∃ l₁ l₂, fetchEvents env address = l₁ ++ FetchEvent.httpRequest url :: l₂ ∧
        FetchEvent.setLoading true ∈ l₁ ∧ FetchEvent.setApprovals [] ∈ l₁) ∧
    (fetchRun env address st).loading = false ∧
    (fetchFails env address → (fetchRun env address st).approvals = []) := by
  rcases hg : env.httpGet (apiUrl address env.apiKey) with m | r
  · refine ⟨?_, ?_, ?_⟩
    · intro url hmem
      simp [fetchEvents, hv, hg] at hmem
      subst hmem
      exact ⟨[FetchEvent.setLoading true, FetchEvent.setApprovals []],
        [FetchEvent.alert ("Error: " ++ m), FetchEvent.setLoading false],
        by simp [fetchEvents, hv, hg], by simp, by simp⟩
    · simp [fetchRun, fetchEvents, hv, hg, applyEvent]
    · intro _
      simp [fetchRun, fetchEvents, hv, hg, applyEvent]
  · by_cases hs : r.status = "1"
    · refine ⟨?_, ?_, ?_⟩
      · intro url hmem
        simp [fetchEvents, hv, hg, hs] at hmem
        subst hmem
        exact ⟨[FetchEvent.setLoading true, FetchEvent.setApprovals []],
          [FetchEvent.setApprovals
            ((r.result.filter (approvalFilter address)).map formatApproval),
           FetchEvent.setLoading false],
          by simp [fetchEvents, hv, hg, hs], by simp, by simp⟩
      · simp [fetchRun, fetchEvents, hv, hg, hs, applyEvent]
      · intro hf
        exact absurd hf (by simp [fetchFails, hg, hs])
    · refine ⟨?_, ?_, ?_⟩
      · intro url hmem
        simp [fetchEvents, hv, hg, bne_iff_ne, hs] at hmem
        subst hmem
        exact ⟨[FetchEvent.setLoading true, FetchEvent.setApprovals []],
          [FetchEvent.alert ("Error: " ++ messageOr r), FetchEvent.setLoading false],
          by simp [fetchEvents, hv, hg, bne_iff_ne, hs], by simp, by simp⟩
      · simp [fetchRun, fetchEvents, hv, hg, bne_iff_ne, hs, applyEvent]
      · intro _
        simp [fetchRun, fetchEvents, hv, hg, bne_iff_ne, hs, applyEvent]

/-- Witness for C10 at a rejecting fetch environment. -/
theorem C10_clears_and_loading_witness :
    (fetchRun fenvErr addrLower initialState).approvals = [] ∧
    (fetchRun fenvErr addrLower initialState).loading = false := by
  have h := C10_clears_and_loading fenvErr addrLower initialState (by decide)
  exact ⟨h.2.2 (by exact True.intro), h.2.1⟩
